import Mathlib

/-!
Shallow embedding of the workout-log merge engine of `whisper_stt.py`
(`append_to_master_log` and its callers), together with theorems checking
the specification's claims about it.

Python strings are sequences of Unicode code points; we model them as
`List Char`, with `str.startswith` as a prefix test over code points and
f-string concatenation as list append.  Python dictionaries produced by the
LLM and stored in the log are modelled as records whose optional keys are
`Option` fields (a key read with `.get` may be absent); reading a missing
mandatory key (`d["exercises"]`) raises `KeyError`, modelled with `Except`.
-/

namespace Workout

/-- A Python string: a sequence of Unicode code points. -/
abbrev PyStr := List Char

/-- Python `s.startswith(p)`: `p` is a prefix of `s` (code-point-wise). -/
def pyStartsWith (s p : PyStr) : Bool := List.isPrefixOf p s

/-- Python truthiness of a possibly-absent string value: `None` and the
empty string are falsy, every other string is truthy. -/
def truthy : Option PyStr → Bool
  | none => false
  | some s => !s.isEmpty

/-- One performed set, as produced by the extraction stage
(the keys of the JSON object in the prompt of `extract_workout_data`). -/
structure SetEntry where
  set_number : Option Nat := none
  reps : Option Nat := none
  weight : Option PyStr := none
  reps_in_reserve : Option Nat := none
  notes : Option PyStr := none
deriving DecidableEq, Repr

/-- One exercise: a name and its sets. -/
structure Exercise where
  name : PyStr := []
  sets : Option (List SetEntry) := none
deriving DecidableEq, Repr

/-- One day's workout record.  Every key may be absent in the underlying
dictionary, so each field is an `Option`; `append_to_master_log` reads
`date`, `workout_type` and `notes` with `.get` (tolerating absence) and
`exercises` with mandatory indexing (raising `KeyError` when absent). -/
structure WorkoutRecord where
  date : Option PyStr := none
  exercises : Option (List Exercise) := none
  workout_type : Option PyStr := none
  duration : Option PyStr := none
  notes : Option PyStr := none
deriving DecidableEq, Repr

/-- The persisted master log: `{"workouts": [...]}`. -/
structure MasterLog where
  workouts : List WorkoutRecord
deriving DecidableEq, Repr

/-- The date-matching test of the find loop (lines 135-140):
`workout.get("date", "").startswith(today)`. -/
def matchesDate (w : WorkoutRecord) (today : PyStr) : Bool :=
  pyStartsWith (w.date.getD []) today

/-- The find loop of `append_to_master_log` (lines 133-140): scan the
workouts in order and select the first whose stored date starts with
`today`; `none` when no workout matches. -/
def findExistingWorkout (ws : List WorkoutRecord) (today : PyStr) : Option WorkoutRecord :=
  ws.find? (fun w => matchesDate w today)

/-- The merge branch of `append_to_master_log` (lines 142-156), acting on
the matched record: extend its exercise list with the incoming one, force
`workout_type` to `"mixed"` when the incoming record specifies a type
different from the existing one, and append truthy incoming notes with the
separator `"; "`.  Reading a missing `exercises` key on either record is a
`KeyError`. -/
def mergeInto (existing wd : WorkoutRecord) : Except String WorkoutRecord :=
  match existing.exercises, wd.exercises with
  | some exs, some news =>
      let wt := if truthy wd.workout_type = true ∧ wd.workout_type ≠ existing.workout_type
                then some ("mixed").data else existing.workout_type
      let nts := if truthy wd.notes = true then
                   if existing.notes.getD [] ≠ []
                   then some (existing.notes.getD [] ++ ("; ").data ++ wd.notes.getD [])
                   else wd.notes
                 else existing.notes
      .ok { existing with exercises := some (exs ++ news), workout_type := wt, notes := nts }
  | _, _ => .error "KeyError: exercises"

/-- In-place mutation of the record found by the find loop: replace the
first record matching `today` (the one `findExistingWorkout` aliases) by
the merged record, leaving every other record in place. -/
def replaceFirstMatching (ws : List WorkoutRecord) (today : PyStr) (merged : WorkoutRecord) :
    List WorkoutRecord :=
  match ws with
  | [] => []
  | w :: rest =>
      if matchesDate w today then merged :: rest
      else w :: replaceFirstMatching rest today merged

/-- The in-memory merge step of `append_to_master_log` (lines 123-163),
between the load and the save: force the incoming record's date to `today`
(line 124), find an existing workout for `today`, and either merge into it
in place or append the incoming record at the end of the list. -/
def merge (workout_data : WorkoutRecord) (master_log : MasterLog) (today : PyStr) :
    Except String MasterLog :=
  let wd := { workout_data with date := some today }
  match findExistingWorkout master_log.workouts today with
  | some existing =>
      match mergeInto existing wd with
      | .ok merged => .ok ⟨replaceFirstMatching master_log.workouts today merged⟩
      | .error e => .error e
  | none => .ok ⟨master_log.workouts ++ [wd]⟩

/-- The state of the log file at `master_log_path`: the file may be
missing, hold data that `json.load` cannot parse, or hold a parsed log. -/
inductive StoreData where
  | missing : StoreData
  | malformed : StoreData
  | stored : MasterLog → StoreData
deriving DecidableEq, Repr

/-- The load step of `append_to_master_log` (lines 127-131): a missing
file is caught (`except FileNotFoundError`) and bootstraps the empty log
`{"workouts": []}`; malformed data raises `json.JSONDecodeError`, which is
not caught here. -/
def loadMasterLog : StoreData → Except String MasterLog
  | .missing => .ok ⟨[]⟩
  | .malformed => .error "JSONDecodeError"
  | .stored log => .ok log

/-- The whole of `append_to_master_log` as run under the `__main__`
try/except: load the store, merge, and save on success.  The result is the
store state after the run together with the reported error, if any: an
uncaught exception propagates to the top-level handler, which prints it and
exits before the save on line 166 is reached, leaving the store unchanged. -/
def append_to_master_log (workout_data : WorkoutRecord) (store : StoreData) (today : PyStr) :
    StoreData × Option String :=
  match loadMasterLog store with
  | .error e => (store, some e)
  | .ok master_log =>
      match merge workout_data master_log today with
      | .error e => (store, some e)
      | .ok log' => (.stored log', none)

/-- Runs `k` sequential merge steps targeting the same date, each feeding the
log produced by the previous one. -/
def mergeSeq (master_log : MasterLog) (incs : List WorkoutRecord) (today : PyStr) :
    Except String MasterLog :=
  match incs with
  | [] => .ok master_log
  | i :: rest =>
      match merge i master_log today with
      | .ok log' => mergeSeq log' rest today
      | .error e => .error e

/-- Modelled from the spec: the record-validation boundary check of
section 4.2, which has no counterpart in the source code.  `exercises`
must be present (possibly empty), every exercise must have a non-empty
`name`, and every set of a present `sets` list must carry a
`set_number`. -/
def validIncoming (w : WorkoutRecord) : Bool :=
  match w.exercises with
  | none => false
  | some exs => exs.all fun e =>
      (!e.name.isEmpty) &&
      (match e.sets with
       | none => true
       | some ss => ss.all fun s => s.set_number.isSome)

/-- The validation check as a by-hand case split, for reuse in proofs. -/
theorem validIncoming_exercises {w : WorkoutRecord} (h : validIncoming w = true) :
    w.exercises.isSome = true := by
  unfold validIncoming at h
  cases hw : w.exercises with
  | none => rw [hw] at h; exact absurd h (by simp)
  | some exs => simp

/-- The records of `ws` whose stored date matches `d`. -/
def matchingRecords (ws : List WorkoutRecord) (d : PyStr) : List WorkoutRecord :=
  ws.filter (fun w => matchesDate w d)

/-- The length of a record's exercise list (`0` for an absent key). -/
def exLen (w : WorkoutRecord) : Nat := (w.exercises.getD []).length

/-- The total exercise count of a list of records. -/
def sumExLen (ws : List WorkoutRecord) : Nat := (ws.map exLen).sum

/-- Every string starts with itself. -/
theorem pyStartsWith_refl (s : PyStr) : pyStartsWith s s = true := by
  induction s with
  | nil => rfl
  | cons a as ih =>
      simp only [pyStartsWith, List.isPrefixOf] at ih ⊢
      simp [ih]

/-- A record whose date was just forced to `today` matches `today`. -/
theorem matchesDate_dateSet (w : WorkoutRecord) (d : PyStr) :
    matchesDate { w with date := some d } d = true := by
  simp [matchesDate, Option.getD, pyStartsWith_refl]

/-- A successful `find?` splits the list at the first witness. -/
theorem find?_eq_some_split {α : Type} (p : α → Bool) :
    ∀ (l : List α) (a : α), l.find? p = some a →
      ∃ pre post, l = pre ++ a :: post ∧ (∀ x ∈ pre, p x = false) ∧ p a = true := by
  intro l
  induction l with
  | nil => intro a h; exact absurd h (by simp)
  | cons b bs ih =>
      intro a h
      by_cases hb : p b = true
      · rw [List.find?_cons_of_pos _ hb] at h
        exact ⟨[], bs, by simp [← Option.some_inj.mp h], by simp, by
          rw [← Option.some_inj.mp h]; exact hb⟩
      · rw [List.find?_cons_of_neg _ hb] at h
        obtain ⟨pre, post, hsplit, hpre, ha⟩ := ih a h
        exact ⟨b :: pre, post, by simp [hsplit], by
          intro x hx
          rcases List.mem_cons.mp hx with hxb | hxp
          · rw [hxb]; exact Bool.eq_false_iff.mpr hb
          · exact hpre x hxp, ha⟩

/-- Failure of `find?` means no element satisfies the test. -/
theorem findExistingWorkout_eq_none (ws : List WorkoutRecord) (d : PyStr) :
    findExistingWorkout ws d = none ↔ ∀ w ∈ ws, matchesDate w d = false := by
  unfold findExistingWorkout
  rw [List.find?_eq_none]
  constructor
  · intro h w hw; exact Bool.eq_false_iff.mpr (h w hw)
  · intro h w hw; exact fun hc => by rw [h w hw] at hc; cases hc

/-- Replacing the first match in a list split at its first match. -/
theorem replaceFirstMatching_split (d : PyStr) (m ex : WorkoutRecord) :
    ∀ (pre post : List WorkoutRecord), (∀ w ∈ pre, matchesDate w d = false) →
      matchesDate ex d = true →
      replaceFirstMatching (pre ++ ex :: post) d m = pre ++ m :: post := by
  intro pre
  induction pre with
  | nil => intro post _ hex; simp [replaceFirstMatching, hex]
  | cons b bs ih =>
      intro post hpre hex
      have hb : matchesDate b d = false := hpre b (by simp)
      simp only [List.cons_append, replaceFirstMatching, hb]
      simp [ih post (fun w hw => hpre w (by simp [hw])) hex]

/-- Evaluation of `mergeInto` on records that both carry an exercise list: the merged
record, field by field. -/
theorem mergeInto_ok (existing wd : WorkoutRecord) (exs news : List Exercise)
    (h1 : existing.exercises = some exs) (h2 : wd.exercises = some news) :
    mergeInto existing wd = .ok
      { existing with
        exercises := some (exs ++ news),
        workout_type :=
          if truthy wd.workout_type = true ∧ wd.workout_type ≠ existing.workout_type
          then some ("mixed").data else existing.workout_type,
        notes :=
          if truthy wd.notes = true then
            if existing.notes.getD [] ≠ []
            then some (existing.notes.getD [] ++ ("; ").data ++ wd.notes.getD [])
            else wd.notes
          else existing.notes } := by
  unfold mergeInto
  rw [h1, h2]

/-- A merge that finds a matching record: the log splits at the first
match, which is replaced in place by the merged record. -/
theorem merge_found (inc : WorkoutRecord) (log : MasterLog) (d : PyStr) (ex : WorkoutRecord)
    (exs news : List Exercise)
    (hfind : findExistingWorkout log.workouts d = some ex)
    (hex : ex.exercises = some exs) (hinc : inc.exercises = some news) :
    ∃ pre post merged, log.workouts = pre ++ ex :: post ∧
      (∀ w ∈ pre, matchesDate w d = false) ∧ matchesDate ex d = true ∧
      merge inc log d = .ok ⟨pre ++ merged :: post⟩ ∧
      merged.date = ex.date ∧
      merged.duration = ex.duration ∧
      merged.exercises = some (exs ++ news) ∧
      merged.workout_type =
        (if truthy inc.workout_type = true ∧ inc.workout_type ≠ ex.workout_type
         then some ("mixed").data else ex.workout_type) ∧
      merged.notes =
        (if truthy inc.notes = true then
           if ex.notes.getD [] ≠ []
           then some (ex.notes.getD [] ++ ("; ").data ++ inc.notes.getD [])
           else inc.notes
         else ex.notes) := by
  obtain ⟨pre, post, hsplit, hpre, hexm⟩ :=
    find?_eq_some_split (fun w => matchesDate w d) log.workouts ex hfind
  refine ⟨pre, post,
    { ex with
      exercises := some (exs ++ news),
      workout_type :=
        if truthy inc.workout_type = true ∧ inc.workout_type ≠ ex.workout_type
        then some ("mixed").data else ex.workout_type,
      notes :=
        if truthy inc.notes = true then
          if ex.notes.getD [] ≠ []
          then some (ex.notes.getD [] ++ ("; ").data ++ inc.notes.getD [])
          else inc.notes
        else ex.notes },
    hsplit, hpre, hexm, ?_, rfl, rfl, rfl, rfl, rfl⟩
  have hwd : ({ inc with date := some d } : WorkoutRecord).exercises = some news := hinc
  have hmi := mergeInto_ok ex { inc with date := some d } exs news hex hwd
  simp only [merge, hfind, hmi]
  rw [hsplit, replaceFirstMatching_split d _ ex pre post hpre hexm]

/-- A merge that finds no matching record appends the date-forced incoming
record at the end of the log. -/
theorem merge_notfound (inc : WorkoutRecord) (log : MasterLog) (d : PyStr)
    (hfind : findExistingWorkout log.workouts d = none) :
    merge inc log d = .ok ⟨log.workouts ++ [{ inc with date := some d }]⟩ := by
  unfold merge
  rw [hfind]

/-- A log with no record matching `d` has no matching records. -/
theorem matchingRecords_eq_nil (ws : List WorkoutRecord) (d : PyStr)
    (h : ∀ w ∈ ws, matchesDate w d = false) : matchingRecords ws d = [] := by
  induction ws with
  | nil => rfl
  | cons w rest ih =>
      have hw : matchesDate w d = false := h w (by simp)
      simp only [matchingRecords, List.filter_cons, hw]
      exact ih (fun x hx => h x (by simp [hx]))

/-- Filtering matching records distributes over append. -/
theorem matchingRecords_append (a b : List WorkoutRecord) (d : PyStr) :
    matchingRecords (a ++ b) d = matchingRecords a d ++ matchingRecords b d := by
  simp [matchingRecords, List.filter_append]

/-- Filtering matching records keeps a matching head. -/
theorem matchingRecords_cons_pos {w : WorkoutRecord} {d : PyStr}
    (h : matchesDate w d = true) (ws : List WorkoutRecord) :
    matchingRecords (w :: ws) d = w :: matchingRecords ws d := by
  simp [matchingRecords, List.filter_cons, h]

/-- One merge step, under the per-date invariant: it succeeds, preserves
well-formedness, leaves exactly one record matching the target date, and
that record's exercise count is the old matching total plus the incoming
count. -/
theorem merge_step_spec (inc : WorkoutRecord) (log : MasterLog) (d : PyStr)
    (hlog : ∀ w ∈ log.workouts, w.exercises.isSome = true)
    (hinc : inc.exercises.isSome = true)
    (hinv : (matchingRecords log.workouts d).length ≤ 1) :
    ∃ log', merge inc log d = .ok log' ∧
      (∀ w ∈ log'.workouts, w.exercises.isSome = true) ∧
      ∃ w, matchingRecords log'.workouts d = [w] ∧
        exLen w = sumExLen (matchingRecords log.workouts d) + exLen inc := by
  obtain ⟨news, hinc'⟩ := Option.isSome_iff_exists.mp hinc
  cases hfind : findExistingWorkout log.workouts d with
  | none =>
      have hnone := (findExistingWorkout_eq_none log.workouts d).mp hfind
      have hmr : matchingRecords log.workouts d = [] := matchingRecords_eq_nil _ _ hnone
      refine ⟨⟨log.workouts ++ [{ inc with date := some d }]⟩,
        merge_notfound inc log d hfind, ?_, ?_⟩
      · intro w hw
        rcases List.mem_append.mp hw with h | h
        · exact hlog w h
        · have : w = { inc with date := some d } := by simpa using h
          rw [this]
          exact hinc
      · refine ⟨{ inc with date := some d }, ?_, ?_⟩
        · rw [matchingRecords_append, hmr]
          simp [matchingRecords, List.filter_cons, matchesDate_dateSet]
        · rw [hmr]
          simp [sumExLen, exLen]
  | some ex =>
      have hexmem : ex ∈ log.workouts := List.mem_of_find?_eq_some hfind
      obtain ⟨exs, hexs⟩ := Option.isSome_iff_exists.mp (hlog ex hexmem)
      obtain ⟨pre, post, merged, hsplit, hpre, hexm, hmerge, hdate, _, hexsm, _, _⟩ :=
        merge_found inc log d ex exs news hfind hexs hinc'
      have hprenil : matchingRecords pre d = [] := matchingRecords_eq_nil _ _ hpre
      have hpostnil : matchingRecords post d = [] := by
        rw [hsplit, matchingRecords_append, hprenil, matchingRecords_cons_pos hexm] at hinv
        simp only [List.nil_append, List.length_cons] at hinv
        have : (matchingRecords post d).length = 0 := by omega
        exact List.length_eq_zero.mp this
      have hm : matchesDate merged d = true := by
        unfold matchesDate at hexm ⊢
        rw [hdate]
        exact hexm
      refine ⟨_, hmerge, ?_, ?_⟩
      · intro w hw
        rcases List.mem_append.mp hw with h | h
        · exact hlog w (by rw [hsplit]; exact List.mem_append_left _ h)
        · rcases List.mem_cons.mp h with h | h
          · rw [h, hexsm]; rfl
          · exact hlog w (by rw [hsplit]; exact List.mem_append_right _ (List.mem_cons_of_mem _ h))
      · refine ⟨merged, ?_, ?_⟩
        · rw [matchingRecords_append, hprenil, matchingRecords_cons_pos hm, hpostnil]
          simp
        · rw [hsplit, matchingRecords_append, hprenil, matchingRecords_cons_pos hexm,
            hpostnil]
          simp [sumExLen, exLen, hexs, hinc', hexsm]

/-- Sequential merges accumulate: after at least one merge the log holds
exactly one record matching the target date, whose exercise count is the
initial matching total plus the total incoming count. -/
theorem mergeSeq_spec (d : PyStr) :
    ∀ incs : List WorkoutRecord, (∀ i ∈ incs, i.exercises.isSome = true) → incs ≠ [] →
    ∀ log : MasterLog, (∀ w ∈ log.workouts, w.exercises.isSome = true) →
      (matchingRecords log.workouts d).length ≤ 1 →
      ∃ log', mergeSeq log incs d = .ok log' ∧
        ∃ w, matchingRecords log'.workouts d = [w] ∧
          exLen w = sumExLen (matchingRecords log.workouts d) + sumExLen incs := by
  intro incs
  induction incs with
  | nil => intro _ hk; exact absurd rfl hk
  | cons i rest ih =>
      intro hincs _ log hlog hinv
      obtain ⟨log1, hmerge, hwf1, w1, hmatch1, hlen1⟩ :=
        merge_step_spec i log d hlog (hincs i (by simp)) hinv
      cases rest with
      | nil =>
          refine ⟨log1, ?_, w1, hmatch1, ?_⟩
          · simp [mergeSeq, hmerge]
          · rw [hlen1]; simp [sumExLen]
      | cons j rest' =>
          obtain ⟨log', hseq, w, hmatch, hlen⟩ :=
            ih (fun x hx => hincs x (by simp [hx])) (by simp) log1 hwf1
              (by rw [hmatch1]; simp)
          refine ⟨log', ?_, w, hmatch, ?_⟩
          · simp only [mergeSeq]
            rw [hmerge]
            exact hseq
          · rw [hlen, hmatch1]
            simp only [sumExLen, List.map_cons, List.sum_cons, List.map_nil,
              List.sum_nil] at hlen1 ⊢
            omega

/-- A merge whose incoming record carries an exercise list succeeds on any
well-formed log. -/
theorem merge_ok_of_isSome (inc : WorkoutRecord) (log : MasterLog) (d : PyStr)
    (hinc : inc.exercises.isSome = true)
    (hwf : ∀ w ∈ log.workouts, w.exercises.isSome = true) :
    ∃ log', merge inc log d = .ok log' := by
  obtain ⟨news, hinc'⟩ := Option.isSome_iff_exists.mp hinc
  cases hfind : findExistingWorkout log.workouts d with
  | none => exact ⟨_, merge_notfound inc log d hfind⟩
  | some ex =>
      have hexmem : ex ∈ log.workouts := List.mem_of_find?_eq_some hfind
      obtain ⟨exs, hexs⟩ := Option.isSome_iff_exists.mp (hwf ex hexmem)
      obtain ⟨_, _, merged, _, _, _, hmerge, _⟩ :=
        merge_found inc log d ex exs news hfind hexs hinc'
      exact ⟨_, hmerge⟩

/-- A merge whose incoming record lacks the `exercises` key raises
`KeyError` exactly when a matching record exists. -/
theorem merge_exercises_missing (inc : WorkoutRecord) (log : MasterLog) (d : PyStr)
    (ex : WorkoutRecord) (hfind : findExistingWorkout log.workouts d = some ex)
    (hinc : inc.exercises = none) :
    merge inc log d = .error "KeyError: exercises" := by
  have hwd : ({ inc with date := some d } : WorkoutRecord).exercises = none := hinc
  have hmi : mergeInto ex { inc with date := some d } = .error "KeyError: exercises" := by
    unfold mergeInto
    rw [hwd]
    cases ex.exercises <;> rfl
  simp only [merge, hfind, hmi]

/-- Lifting a successful merge through load and save on a stored log. -/
theorem append_stored_ok {inc : WorkoutRecord} {log : MasterLog} {d : PyStr} {log' : MasterLog}
    (h : merge inc log d = .ok log') :
    append_to_master_log inc (.stored log) d = (.stored log', none) := by
  simp only [append_to_master_log, loadMasterLog, h]

/-- A failing merge leaves a stored log unchanged and reports the error. -/
theorem append_stored_error {inc : WorkoutRecord} {log : MasterLog} {d : PyStr} {e : String}
    (h : merge inc log d = .error e) :
    append_to_master_log inc (.stored log) d = (.stored log, some e) := by
  simp only [append_to_master_log, loadMasterLog, h]

/-- In-place replacement never changes the number of records. -/
theorem replaceFirstMatching_length (d : PyStr) (m : WorkoutRecord) :
    ∀ ws : List WorkoutRecord, (replaceFirstMatching ws d m).length = ws.length := by
  intro ws
  induction ws with
  | nil => rfl
  | cons w rest ih =>
      by_cases h : matchesDate w d = true
      · simp [replaceFirstMatching, h]
      · simp only [replaceFirstMatching, Bool.eq_false_iff.mpr h]
        simp [ih]

/-- A successful merge never shrinks the log. -/
theorem merge_length_mono (inc : WorkoutRecord) (log : MasterLog) (d : PyStr)
    (log' : MasterLog) (h : merge inc log d = .ok log') :
    log.workouts.length ≤ log'.workouts.length := by
  simp only [merge] at h
  split at h
  · split at h
    · simp only [Except.ok.injEq] at h
      rw [← h]
      simp [replaceFirstMatching_length]
    · cases h
  · simp only [Except.ok.injEq] at h
    rw [← h]
    simp

/-- The target date of the running examples. -/
def d0 : PyStr := ("2025-11-01").data

/-- An exercise with no sets. -/
def exRun : Exercise := { name := ("run").data }

/-- An exercise with one set carrying a set number. -/
def exSquat : Exercise :=
  { name := ("squat").data, sets := some [{ set_number := some 1, reps := some 5 }] }

/-- A stored strength record dated `2025-11-01`, with notes. -/
def recStrength : WorkoutRecord :=
  { date := some d0, exercises := some [exSquat],
    workout_type := some ("strength").data, notes := some ("tired").data }

/-- A stored cardio record dated `2025-11-01`. -/
def recCardio : WorkoutRecord :=
  { date := some d0, exercises := some [exRun], workout_type := some ("cardio").data }

/-- A stored record dated `2025-11-01` with no workout type. -/
def recNoType : WorkoutRecord := { date := some d0, exercises := some [] }

/-- A stored record dated `2025-11-02`. -/
def recDate2 : WorkoutRecord := { date := some ("2025-11-02").data, exercises := some [] }

/-- A stored record whose date is a full datetime on `2025-11-01`. -/
def recDT : WorkoutRecord :=
  { date := some ("2025-11-01T00:00:00").data, exercises := some [] }

/-- An incoming cardio record with notes. -/
def incCardio : WorkoutRecord :=
  { exercises := some [exRun], workout_type := some ("cardio").data,
    notes := some ("felt great").data }

/-- An incoming record that passes the section 4.2 validation contract. -/
def incValid : WorkoutRecord := { exercises := some [exSquat] }

/-- An incoming record violating the validation contract: an exercise with
an empty name. -/
def incInvalid : WorkoutRecord := { exercises := some [{ name := [] }] }

/-- An incoming record with one exercise and nothing else. -/
def incA : WorkoutRecord := { exercises := some [exRun] }

/-- A second incoming record with one exercise. -/
def incB : WorkoutRecord := { exercises := some [exSquat] }

/-- The record produced by merging `incA` into `recDT`. -/
def mergedDT : WorkoutRecord :=
  { date := some ("2025-11-01T00:00:00").data, exercises := some [exRun] }

/-- C1 (amended): for every initial log whose records are well-formed and
contain at most one record matching date `d`, and every nonempty sequence
of merges targeting `d` whose incoming records carry exercise lists, the
resulting log contains exactly one record whose stored date matches `d`
(starts with `d`; the stored date itself is only equal to `d` when the
record was freshly created), and that record's exercise-list length is the
matching records' original total (zero when freshly created) plus the sum
of the incoming exercise-list lengths — concatenation, never
deduplication. -/
theorem merges_accumulate (log : MasterLog) (d : PyStr) (incs : List WorkoutRecord)
    (hlog : ∀ w ∈ log.workouts, w.exercises.isSome = true)
    (hincs : ∀ i ∈ incs, i.exercises.isSome = true)
    (hinv : (matchingRecords log.workouts d).length ≤ 1)
    (hk : incs ≠ []) :
    ∃ log', mergeSeq log incs d = .ok log' ∧
      ∃ w, matchingRecords log'.workouts d = [w] ∧
        exLen w = sumExLen (matchingRecords log.workouts d) + sumExLen incs :=
  mergeSeq_spec d incs hincs hk log hlog hinv

/-- Witness for C1: two merges into the empty log leave exactly one
matching record holding both exercises. -/
theorem merges_accumulate_witness :
    ∃ log', mergeSeq ⟨[]⟩ [incA, incB] d0 = .ok log' ∧
      ∃ w, matchingRecords log'.workouts d0 = [w] ∧
        exLen w = sumExLen (matchingRecords (MasterLog.mk []).workouts d0) +
          sumExLen [incA, incB] :=
  merges_accumulate ⟨[]⟩ d0 [incA, incB] (by simp) (by decide) (by decide) (by decide)

/-- Counterexample for C1 as stated: a stored datetime value
`"2025-11-01T00:00:00"` satisfies the one-per-date invariant and is merged
into when targeting `"2025-11-01"`, but the resulting log has zero records
whose date *equals* the target date; and with zero merges on the empty log
no record for the date exists at all. -/
theorem date_equality_fails :
    recDT.exercises.isSome = true ∧ incA.exercises.isSome = true ∧
    (matchingRecords [recDT] d0).length ≤ 1 ∧
    mergeSeq ⟨[recDT]⟩ [incA] d0 = .ok ⟨[mergedDT]⟩ ∧
    (([mergedDT] : List WorkoutRecord).filter (fun w => w.date == some d0)).length = 0 ∧
    mergeSeq ⟨[]⟩ [] d0 = .ok ⟨[]⟩ ∧
    (([] : List WorkoutRecord).filter (fun w => w.date == some d0)).length = 0 := by
  refine ⟨rfl, rfl, by decide, rfl, by decide, rfl, rfl⟩

/-- Counterexample for C2 as stated: an incoming record violating the
section 4.2 contract (an exercise with an empty name) is not stopped — the
run completes with no reported failure and the persisted store changes. -/
theorem invalid_record_persisted :
    validIncoming incInvalid = false ∧
    append_to_master_log incInvalid (.stored ⟨[]⟩) d0 =
      (.stored ⟨[{ incInvalid with date := some d0 }]⟩, none) ∧
    StoreData.stored ⟨[{ incInvalid with date := some d0 }]⟩ ≠ .stored ⟨[]⟩ := by
  refine ⟨rfl, by decide, by decide⟩

/-- C2 (amended): the code performs no record validation.  An invalid
incoming record that still carries an exercise list is merged and
persisted normally on any well-formed stored log (no failure reported);
only an incoming record lacking the `exercises` key is a hard stop, and
only when a matching record exists — then the error is reported and the
store is left unchanged — while with no matching record even that record
is appended and persisted. -/
theorem validation_absent (inc : WorkoutRecord) (log : MasterLog) (d : PyStr)
    (_hbad : validIncoming inc = false) :
    ((∀ w ∈ log.workouts, w.exercises.isSome = true) → inc.exercises.isSome = true →
       ∃ log', append_to_master_log inc (.stored log) d = (.stored log', none)) ∧
    (inc.exercises = none → findExistingWorkout log.workouts d = none →
       append_to_master_log inc (.stored log) d =
         (.stored ⟨log.workouts ++ [{ inc with date := some d }]⟩, none)) ∧
    (inc.exercises = none → ∀ ex, findExistingWorkout log.workouts d = some ex →
       append_to_master_log inc (.stored log) d =
         (.stored log, some "KeyError: exercises")) := by
  refine ⟨?_, ?_, ?_⟩
  · intro hwf hinc
    obtain ⟨log', h⟩ := merge_ok_of_isSome inc log d hinc hwf
    exact ⟨log', append_stored_ok h⟩
  · intro _ hfind
    exact append_stored_ok (merge_notfound inc log d hfind)
  · intro hinc ex hfind
    exact append_stored_error (merge_exercises_missing inc log d ex hfind hinc)

/-- Witness for C2 (amended): the concrete invalid record is merged into
the empty stored log without any reported failure. -/
theorem validation_absent_witness :
    ∃ log', append_to_master_log incInvalid (.stored ⟨[]⟩) d0 = (.stored log', none) :=
  (validation_absent incInvalid ⟨[]⟩ d0 (by decide)).1 (by simp) (by decide)

/-- C3: the merge selects the first record, in insertion order, whose
stored date starts with the target date; it selects none exactly when no
stored date has the target as a prefix; `"2025-11-01T00:00:00"` matches
target `"2025-11-01"` while `"2025-11-02"` does not. -/
theorem first_match_rule (ws : List WorkoutRecord) (d : PyStr) :
    (∀ ex, findExistingWorkout ws d = some ex →
       ∃ pre post, ws = pre ++ ex :: post ∧
         (∀ w ∈ pre, matchesDate w d = false) ∧ matchesDate ex d = true) ∧
    (findExistingWorkout ws d = none ↔ ∀ w ∈ ws, matchesDate w d = false) ∧
    matchesDate { date := some (("2025-11-01T00:00:00").data) } (("2025-11-01").data) = true ∧
    matchesDate { date := some (("2025-11-02").data) } (("2025-11-01").data) = false := by
  refine ⟨?_, findExistingWorkout_eq_none ws d, by decide, by decide⟩
  intro ex h
  exact find?_eq_some_split _ ws ex h

/-- Witness for C3: in a log holding a `2025-11-02` record, then a
datetime `2025-11-01` record, then a plain `2025-11-01` record, the find
loop selects the datetime record — the first prefix match. -/
theorem first_match_rule_witness :
    ∃ pre post, ([recDate2, recDT, recStrength] : List WorkoutRecord) = pre ++ recDT :: post ∧
      (∀ w ∈ pre, matchesDate w d0 = false) ∧ matchesDate recDT d0 = true :=
  (first_match_rule [recDate2, recDT, recStrength] d0).1 recDT (by decide)

/-- C4: on a merge with a matched record, an incoming specified type that
differs from the existing one forces `"mixed"`; an equal incoming type, or
an unspecified one, leaves the existing type unchanged. -/
theorem workout_type_policy (inc : WorkoutRecord) (log : MasterLog) (d : PyStr)
    (ex : WorkoutRecord) (exs news : List Exercise)
    (hfind : findExistingWorkout log.workouts d = some ex)
    (hex : ex.exercises = some exs) (hinc : inc.exercises = some news) :
    ∃ pre post merged, log.workouts = pre ++ ex :: post ∧
      merge inc log d = .ok ⟨pre ++ merged :: post⟩ ∧
      (truthy inc.workout_type = true → inc.workout_type ≠ ex.workout_type →
         merged.workout_type = some (("mixed").data)) ∧
      (inc.workout_type = ex.workout_type → merged.workout_type = ex.workout_type) ∧
      (truthy inc.workout_type = false → merged.workout_type = ex.workout_type) := by
  obtain ⟨pre, post, merged, hsplit, _, _, hmerge, _, _, _, hwt, _⟩ :=
    merge_found inc log d ex exs news hfind hex hinc
  refine ⟨pre, post, merged, hsplit, hmerge, ?_, ?_, ?_⟩
  · intro ht hne
    rw [hwt, if_pos ⟨ht, hne⟩]
  · intro heq
    rw [hwt, if_neg (fun hc => hc.2 heq)]
  · intro hf
    rw [hwt, if_neg (fun hc => Bool.noConfusion (hf.symm.trans hc.1))]

/-- Witness for C4: cardio into strength yields `"mixed"`; cardio into
cardio leaves `"cardio"`. -/
theorem workout_type_policy_witness :
    (∃ pre post merged, merge incCardio ⟨[recStrength]⟩ d0 = .ok ⟨pre ++ merged :: post⟩ ∧
       merged.workout_type = some (("mixed").data)) ∧
    (∃ pre post merged, merge incCardio ⟨[recCardio]⟩ d0 = .ok ⟨pre ++ merged :: post⟩ ∧
       merged.workout_type = some (("cardio").data)) := by
  constructor
  · obtain ⟨pre, post, merged, _, hmerge, hmix, _, _⟩ :=
      workout_type_policy incCardio ⟨[recStrength]⟩ d0 recStrength [exSquat] [exRun]
        (by decide) rfl rfl
    exact ⟨pre, post, merged, hmerge, hmix rfl (by decide)⟩
  · obtain ⟨pre, post, merged, _, hmerge, _, hkeep, _⟩ :=
      workout_type_policy incCardio ⟨[recCardio]⟩ d0 recCardio [exRun] [exRun]
        (by decide) rfl rfl
    exact ⟨pre, post, merged, hmerge, by rw [hkeep rfl]; rfl⟩

/-- C5: on a merge with a matched record, truthy incoming notes are joined
to non-empty existing notes with the literal separator `"; "`; with empty
existing notes the incoming notes are adopted verbatim; empty incoming
notes leave the existing notes untouched. -/
theorem notes_policy (inc : WorkoutRecord) (log : MasterLog) (d : PyStr)
    (ex : WorkoutRecord) (exs news : List Exercise)
    (hfind : findExistingWorkout log.workouts d = some ex)
    (hex : ex.exercises = some exs) (hinc : inc.exercises = some news) :
    ∃ pre post merged, log.workouts = pre ++ ex :: post ∧
      merge inc log d = .ok ⟨pre ++ merged :: post⟩ ∧
      (truthy inc.notes = true → ex.notes.getD [] ≠ [] →
         merged.notes = some (ex.notes.getD [] ++ ("; ").data ++ inc.notes.getD [])) ∧
      (truthy inc.notes = true → ex.notes.getD [] = [] → merged.notes = inc.notes) ∧
      (truthy inc.notes = false → merged.notes = ex.notes) := by
  obtain ⟨pre, post, merged, hsplit, _, _, hmerge, _, _, _, _, hnts⟩ :=
    merge_found inc log d ex exs news hfind hex hinc
  refine ⟨pre, post, merged, hsplit, hmerge, ?_, ?_, ?_⟩
  · intro ht hne
    rw [hnts, if_pos ht, if_pos hne]
  · intro ht hemp
    rw [hnts, if_pos ht, if_neg (fun hc => hc hemp)]
  · intro hf
    rw [hnts, if_neg (fun hc => Bool.noConfusion (hf.symm.trans hc))]

/-- Witness for C5: notes `"felt great"` merged into notes `"tired"` give
`"tired; felt great"`; an incoming record with no notes leaves the
existing notes unchanged. -/
theorem notes_policy_witness :
    (∃ pre post merged, merge incCardio ⟨[recStrength]⟩ d0 = .ok ⟨pre ++ merged :: post⟩ ∧
       merged.notes = some (("tired; felt great").data)) ∧
    (∃ pre post merged, merge incA ⟨[recStrength]⟩ d0 = .ok ⟨pre ++ merged :: post⟩ ∧
       merged.notes = recStrength.notes) := by
  constructor
  · obtain ⟨pre, post, merged, _, hmerge, hjoin, _, _⟩ :=
      notes_policy incCardio ⟨[recStrength]⟩ d0 recStrength [exSquat] [exRun]
        (by decide) rfl rfl
    refine ⟨pre, post, merged, hmerge, ?_⟩
    rw [hjoin rfl (by decide)]
    decide
  · obtain ⟨pre, post, merged, _, hmerge, _, _, hkeep⟩ :=
      notes_policy incA ⟨[recStrength]⟩ d0 recStrength [exSquat] [exRun]
        (by decide) rfl rfl
    exact ⟨pre, post, merged, hmerge, by rw [hkeep rfl]⟩

/-- C8: on a merge with a matched record, only that record changes, its
`date` and `duration` keep their original values, every other record is
untouched, the record count is preserved — and no successful merge ever
deletes a record. -/
theorem merge_frame (inc : WorkoutRecord) (log : MasterLog) (d : PyStr)
    (ex : WorkoutRecord) (exs news : List Exercise)
    (hfind : findExistingWorkout log.workouts d = some ex)
    (hex : ex.exercises = some exs) (hinc : inc.exercises = some news) :
    ∃ pre post merged, log.workouts = pre ++ ex :: post ∧
      merge inc log d = .ok ⟨pre ++ merged :: post⟩ ∧
      merged.date = ex.date ∧ merged.duration = ex.duration ∧
      (pre ++ merged :: post).length = log.workouts.length ∧
      ∀ (log₂ : MasterLog) (inc₂ : WorkoutRecord) (d₂ : PyStr) (log₂' : MasterLog),
        merge inc₂ log₂ d₂ = .ok log₂' → log₂.workouts.length ≤ log₂'.workouts.length := by
  obtain ⟨pre, post, merged, hsplit, _, _, hmerge, hdate, hdur, _, _, _⟩ :=
    merge_found inc log d ex exs news hfind hex hinc
  refine ⟨pre, post, merged, hsplit, hmerge, hdate, hdur, ?_, ?_⟩
  · rw [hsplit]
    simp
  · intro log₂ inc₂ d₂ log₂' h
    exact merge_length_mono inc₂ log₂ d₂ log₂' h

/-- Witness for C8: merging cardio into the one-record strength log keeps
the record's date and duration. -/
theorem merge_frame_witness :
    ∃ pre post merged, ([recStrength] : List WorkoutRecord) = pre ++ recStrength :: post ∧
      merge incCardio ⟨[recStrength]⟩ d0 = .ok ⟨pre ++ merged :: post⟩ ∧
      merged.date = recStrength.date ∧ merged.duration = recStrength.duration := by
  obtain ⟨pre, post, merged, hsplit, hmerge, hdate, hdur, _, _⟩ :=
    merge_frame incCardio ⟨[recStrength]⟩ d0 recStrength [exSquat] [exRun]
      (by decide) rfl rfl
  exact ⟨pre, post, merged, hsplit, hmerge, hdate, hdur⟩

/-- C9: on a validated incoming record and a well-formed log the merge
computation raises no error: it always produces an updated log. -/
theorem merge_no_error (inc : WorkoutRecord) (log : MasterLog) (d : PyStr)
    (hval : validIncoming inc = true)
    (hwf : ∀ w ∈ log.workouts, w.exercises.isSome = true ∧ w.date.isSome = true) :
    ∃ log', merge inc log d = .ok log' :=
  merge_ok_of_isSome inc log d (validIncoming_exercises hval)
    (fun w hw => (hwf w hw).1)

/-- Witness for C9: the valid incoming record merges into the strength
log without error. -/
theorem merge_no_error_witness :
    ∃ log', merge incValid ⟨[recStrength]⟩ d0 = .ok log' :=
  merge_no_error incValid ⟨[recStrength]⟩ d0 (by decide) (by decide)

/-- C10: on a merge with a matched record whose `workout_type` is absent
or empty, an incoming record specifying a non-empty type forces the result
to `"mixed"` — the incoming type is not adopted as-is. -/
theorem absent_type_forces_mixed (inc : WorkoutRecord) (log : MasterLog) (d : PyStr)
    (ex : WorkoutRecord) (exs news : List Exercise) (t : PyStr)
    (hfind : findExistingWorkout log.workouts d = some ex)
    (hex : ex.exercises = some exs) (hinc : inc.exercises = some news)
    (habsent : ex.workout_type = none ∨ ex.workout_type = some [])
    (ht : inc.workout_type = some t) (htne : t ≠ []) :
    ∃ pre post merged, log.workouts = pre ++ ex :: post ∧
      merge inc log d = .ok ⟨pre ++ merged :: post⟩ ∧
      merged.workout_type = some (("mixed").data) := by
  obtain ⟨pre, post, merged, hsplit, _, _, hmerge, _, _, _, hwt, _⟩ :=
    merge_found inc log d ex exs news hfind hex hinc
  refine ⟨pre, post, merged, hsplit, hmerge, ?_⟩
  rw [hwt, if_pos]
  constructor
  · rw [ht]
    cases t with
    | nil => exact absurd rfl htne
    | cons a as => rfl
  · rw [ht]
    rcases habsent with h | h <;> rw [h] <;> simp [htne]

/-- Witness for C10: cardio into a record with no type yields `"mixed"`,
not `"cardio"`. -/
theorem absent_type_forces_mixed_witness :
    ∃ pre post merged, ([recNoType] : List WorkoutRecord) = pre ++ recNoType :: post ∧
      merge incCardio ⟨[recNoType]⟩ d0 = .ok ⟨pre ++ merged :: post⟩ ∧
      merged.workout_type = some (("mixed").data) :=
  absent_type_forces_mixed incCardio ⟨[recNoType]⟩ d0 recNoType [] [exRun]
    (("cardio").data) (by decide) rfl rfl (Or.inl rfl) rfl (by decide)

/-- C6: loading a missing store bootstraps the empty log (not an error);
malformed stored data is a fatal load error, and the whole run then
reports that error and leaves the store unchanged — no write and no merge
happens. -/
theorem load_bootstrap_and_malformed_abort :
    loadMasterLog .missing = .ok ⟨[]⟩ ∧
    loadMasterLog .malformed = .error "JSONDecodeError" ∧
    ∀ (inc : WorkoutRecord) (d : PyStr),
      append_to_master_log inc .malformed d = (.malformed, some "JSONDecodeError") :=
  ⟨rfl, rfl, fun _ _ => rfl⟩

/-- C7: merging any incoming record into the empty log yields exactly one
record: the incoming one with its own date overwritten by the target
date, all other fields untouched. -/
theorem merge_into_empty_log (inc : WorkoutRecord) (d : PyStr) :
    merge inc ⟨[]⟩ d = .ok ⟨[{ inc with date := some d }]⟩ ∧
    ({ inc with date := some d } : WorkoutRecord).date = some d ∧
    ({ inc with date := some d } : WorkoutRecord).exercises = inc.exercises ∧
    ({ inc with date := some d } : WorkoutRecord).workout_type = inc.workout_type ∧
    ({ inc with date := some d } : WorkoutRecord).duration = inc.duration ∧
    ({ inc with date := some d } : WorkoutRecord).notes = inc.notes :=
  ⟨merge_notfound inc ⟨[]⟩ d rfl, rfl, rfl, rfl, rfl, rfl⟩

end Workout
